import Mathlib

/-!
Verification development for the `Connection` core of the arangojs client
(`src/connection.ts`): host registry, FIFO scheduler with a global
concurrency cap, load-balancing / failover / leader-redirect policy, the
request encoder and the response classifier.

The TypeScript source is embedded shallowly: every definition below mirrors
one function or code region of `src/connection.ts` (the line numbers in the
doc comments refer to that file).  JavaScript builtins used by the source
(`JSON.parse`, `JSON.stringify`, `Array.prototype.indexOf`, object spread,
truthiness) are modelled explicitly as executable Lean functions.
-/

namespace Arango

/-- Model of a JavaScript JSON value, as produced by `JSON.parse` and
consumed by `JSON.stringify`.  Numbers are modelled as integers, which
covers every numeral appearing in this development. -/
inductive Json where
| null
| bool (b : Bool)
| num (n : Int)
| str (s : String)
| arr (elems : List Json)
| obj (fields : List (String × Json))
deriving Repr

/-- JavaScript truthiness of a JSON value (`null`, `false`, `0` and the
empty string are falsy; every object and array is truthy). -/
def jsTruthy : Json → Bool
| Json.null => false
| Json.bool b => b
| Json.num n => decide (n ≠ 0)
| Json.str s => decide (s ≠ "")
| Json.arr _ => true
| Json.obj _ => true

/-- JavaScript `typeof v === "object"` for a JSON value (`null`, arrays and
objects). -/
def jsTypeofObject : Json → Bool
| Json.null => true
| Json.arr _ => true
| Json.obj _ => true
| _ => false

/-- Hex digit character for `\uXXXX` escapes. -/
def hexDigitChar (n : Nat) : Char :=
  if n < 10 then Char.ofNat (48 + n) else Char.ofNat (87 + n)

/-- Escaping of one character inside a JSON string literal, as performed by
the JS builtin `JSON.stringify`. -/
def escapeJsonChar (c : Char) : String :=
  if c = '"' then "\\\""
  else if c = '\\' then "\\\\"
  else if c = '\x08' then "\\b"
  else if c = '\x09' then "\\t"
  else if c = '\x0a' then "\\n"
  else if c = '\x0c' then "\\f"
  else if c = '\x0d' then "\\r"
  else if c.toNat < 32 then
    ("\\u00") ++ String.singleton (hexDigitChar (c.toNat / 16)) ++ String.singleton (hexDigitChar (c.toNat % 16))
  else String.singleton c

/-- A JSON string literal: quotes around the escaped characters. -/
def escapeJsonString (s : String) : String :=
  "\"" ++ String.join (s.toList.map escapeJsonChar) ++ "\""

mutual

/-- Model of the JS builtin `JSON.stringify` on JSON values (member order is
insertion order, as in V8). -/
def stringifyJson : Json → String
| Json.null => "null"
| Json.bool true => "true"
| Json.bool false => "false"
| Json.num n => toString n
| Json.str s => escapeJsonString s
| Json.arr xs => "[" ++ String.intercalate (",") (stringifyElems xs) ++ "]"
| Json.obj fs => "\x7b" ++ String.intercalate (",") (stringifyFields fs) ++ "\x7d"

/-- `JSON.stringify` of a list of array elements. -/
def stringifyElems : List Json → List String
| [] => []
| x :: xs => stringifyJson x :: stringifyElems xs

/-- `JSON.stringify` of a list of object members. -/
def stringifyFields : List (String × Json) → List String
| [] => []
| (k, v) :: fs => (escapeJsonString k ++ ":" ++ stringifyJson v) :: stringifyFields fs

end

/-- JSON whitespace skipping. -/
def jsSkipWs : List Char → List Char
| [] => []
| c :: cs => if c = ' ' ∨ c = '\t' ∨ c = '\n' ∨ c = '\r' then jsSkipWs cs else c :: cs

/-- Value of a hexadecimal digit, if any. -/
def hexVal (c : Char) : Option Nat :=
  if '0' ≤ c ∧ c ≤ '9' then some (c.toNat - 48)
  else if 'a' ≤ c ∧ c ≤ 'f' then some (c.toNat - 87)
  else if 'A' ≤ c ∧ c ≤ 'F' then some (c.toNat - 55)
  else none

/-- Single-character JSON string escapes. -/
def jsonEscChar (e : Char) : Option Char :=
  if e = '"' then some '"'
  else if e = '\\' then some '\\'
  else if e = '/' then some '/'
  else if e = 'b' then some '\x08'
  else if e = 'f' then some '\x0c'
  else if e = 'n' then some '\x0a'
  else if e = 'r' then some '\x0d'
  else if e = 't' then some '\x09'
  else none

/-- Parse the body of a JSON string literal (after the opening quote);
returns the decoded string and the input after the closing quote.  Raw
control characters are rejected, as by `JSON.parse`. -/
def jsonParseStringBody : Nat → List Char → Option (String × List Char)
| 0, _ => none
| _ + 1, [] => none
| fuel + 1, c :: cs =>
  if c = '"' then some ("", cs)
  else if c = '\\' then
    match cs with
    | 'u' :: h1 :: h2 :: h3 :: h4 :: cs2 =>
      match hexVal h1, hexVal h2, hexVal h3, hexVal h4 with
      | some a, some b, some c2, some d =>
        (jsonParseStringBody fuel cs2).map (fun p =>
          (String.singleton (Char.ofNat (((a * 16 + b) * 16 + c2) * 16 + d)) ++ p.fst, p.snd))
      | _, _, _, _ => none
    | e :: cs2 =>
      match jsonEscChar e with
      | some r => (jsonParseStringBody fuel cs2).map (fun p => (String.singleton r ++ p.fst, p.snd))
      | none => none
    | [] => none
  else if c.toNat < 32 then none
  else (jsonParseStringBody fuel cs).map (fun p => (String.singleton c ++ p.fst, p.snd))

/-- Longest prefix of decimal digits. -/
def takeDigits : List Char → List Char × List Char
| [] => ([], [])
| c :: cs =>
  if c.isDigit then
    match takeDigits cs with
    | (ds, rest) => (c :: ds, rest)
  else ([], c :: cs)

/-- Numeric value of a digit list. -/
def digitsToNat (ds : List Char) : Nat := ds.foldl (fun n c => n * 10 + (c.toNat - 48)) 0

mutual

/-- Fuelled recursive-descent parser for JSON values, modelling the JS
builtin `JSON.parse` (restricted to integer numerals).  Returns the value
and the remaining input. -/
def jsonParseVal : Nat → List Char → Option (Json × List Char)
| 0, _ => none
| fuel + 1, cs0 =>
  match jsSkipWs cs0 with
  | [] => none
  | 'n' :: 'u' :: 'l' :: 'l' :: rest => some (Json.null, rest)
  | 't' :: 'r' :: 'u' :: 'e' :: rest => some (Json.bool true, rest)
  | 'f' :: 'a' :: 'l' :: 's' :: 'e' :: rest => some (Json.bool false, rest)
  | '"' :: rest => (jsonParseStringBody (fuel + 1) rest).map (fun p => (Json.str p.fst, p.snd))
  | '[' :: rest =>
    (match jsSkipWs rest with
     | ']' :: rest2 => some (Json.arr [], rest2)
     | _ => (jsonParseElems fuel rest).map (fun p => (Json.arr p.fst, p.snd)))
  | '\x7b' :: rest =>
    (match jsSkipWs rest with
     | '\x7d' :: rest2 => some (Json.obj [], rest2)
     | _ => (jsonParseMembers fuel rest).map (fun p => (Json.obj p.fst, p.snd)))
  | c :: rest =>
    if c = '-' then
      match takeDigits rest with
      | ([], _) => none
      | (ds, rest2) => some (Json.num (-(digitsToNat ds : Int)), rest2)
    else if c.isDigit then
      match takeDigits (c :: rest) with
      | (ds, rest2) => some (Json.num (digitsToNat ds), rest2)
    else none

/-- Comma-separated array elements, up to and including the closing `]`. -/
def jsonParseElems : Nat → List Char → Option (List Json × List Char)
| 0, _ => none
| fuel + 1, cs =>
  match jsonParseVal fuel cs with
  | none => none
  | some (v, rest) =>
    match jsSkipWs rest with
    | ',' :: rest2 =>
      (match jsonParseElems fuel rest2 with
       | none => none
       | some (vs, rest3) => some (v :: vs, rest3))
    | ']' :: rest2 => some ([v], rest2)
    | _ => none

/-- Comma-separated object members, up to and including the closing brace. -/
def jsonParseMembers : Nat → List Char → Option (List (String × Json) × List Char)
| 0, _ => none
| fuel + 1, cs =>
  match jsSkipWs cs with
  | '"' :: rest =>
    (match jsonParseStringBody (fuel + 1) rest with
     | none => none
     | some (k, rest2) =>
       match jsSkipWs rest2 with
       | ':' :: rest3 =>
         (match jsonParseVal fuel rest3 with
          | none => none
          | some (v, rest4) =>
            match jsSkipWs rest4 with
            | ',' :: rest5 =>
              (match jsonParseMembers fuel rest5 with
               | none => none
               | some (ms, rest6) => some ((k, v) :: ms, rest6))
            | '\x7d' :: rest5 => some ([(k, v)], rest5)
            | _ => none)
       | _ => none)
  | _ => none

end

/-- Model of `JSON.parse`: a full parse of the input (only whitespace may
remain), `none` on a syntax error. -/
def jsonParse (s : String) : Option Json :=
  match jsonParseVal (s.length * 2 + 2) s.toList with
  | some (j, rest) => if jsSkipWs rest = [] then some j else none
  | none => none

/-- The JS value held by the local `parsedBody` variable of the resolve
continuation (connection.ts lines 284-322): initially `undefined`, a raw
`Buffer` (the untouched `res.body`), a decoded UTF-8 string, or a decoded
JSON value. -/
inductive JsVal where
| undef
| buf (bytes : String)
| str (s : String)
| json (j : Json)
deriving Repr

/-- JS truthiness of a `parsedBody` value.  A `Buffer` is an object and is
truthy even when empty. -/
def jsValTruthy : JsVal → Bool
| JsVal.undef => false
| JsVal.buf _ => true
| JsVal.str s => decide (s ≠ "")
| JsVal.json j => jsTruthy j

/-- `parsedBody.hasOwnProperty(k)`: true exactly for decoded JSON objects
having `k` among their member names (strings, buffers and other decoded
values own no such properties). -/
def hasOwnProp (v : JsVal) (k : String) : Bool :=
  match v with
  | JsVal.json (Json.obj fs) => decide (k ∈ fs.map Prod.fst)
  | _ => false

/-- A wire response as delivered by the host transport: status code, header
map and raw body bytes (a node `Buffer`, modelled as a byte string). -/
structure Response where
  statusCode : Nat
  headers : List (String × String)
  body : String
deriving Repr, DecidableEq

/-- First-match lookup in a header map (response headers hold each key
once). -/
def lookupHeader (hs : List (String × String)) (k : String) : Option String :=
  match hs.find? (fun p => p.fst == k) with
  | some p => some p.snd
  | none => none

/-- JS `\w` character class: ASCII letters, digits and underscore. -/
def isJsWordChar (c : Char) : Bool := c.isAlphanum || c = '_'

/-- Does the keyword match here, followed by a non-word character or the end
of the input?  (The `(\W|$)` tail of the `MIME_JSON` regex.) -/
def mimeMatchAt (cs : List Char) (kw : List Char) : Bool :=
  kw.isPrefixOf cs && (match cs.drop kw.length with
    | [] => true
    | c :: _ => !(isJsWordChar c))

/-- Search for `/(json|javascript)(\W|$)` anywhere in the input. -/
def mimeJsonSearch : List Char → Bool
| [] => false
| '/' :: rest =>
    mimeMatchAt rest (("json").toList) || mimeMatchAt rest (("javascript").toList) || mimeJsonSearch rest
| _ :: rest => mimeJsonSearch rest

/-- The `MIME_JSON` test (connection.ts line 16):
`/\/(json|javascript)(\W|$)/.test s`. -/
def mimeJsonMatch (s : String) : Bool := mimeJsonSearch s.toList

/-- `contentType && contentType.match(MIME_JSON)` for an optional header. -/
def ctMatchesJson : Option String → Bool
| some c => mimeJsonMatch c
| none => false

/-- Terminal outcome delivered by the resolve continuation to the caller's
errback (connection.ts lines 283-322):
`parseError` is `cb(e)` with the decode failure carrying the response,
`appError` is `cb(new ArangoError(res))`,
`httpError` is `cb(new HttpError(res))`,
`success` is `cb(null, res)` with the delivered `res.body`. -/
inductive Outcome where
| parseError
| appError (body : JsVal)
| httpError (body : JsVal) (status : Nat)
| success (body : JsVal)
deriving Repr

/-- Final classification of `parsedBody` (connection.ts lines 306-321):
the four-field application-error shape takes precedence, then
`statusCode >= 400` (a status of 400 or more is in particular nonzero, so
the JS guard `res.statusCode && res.statusCode >= 400` is `400 ≤ status`),
otherwise success delivering `parsedBody` — or the untouched raw body when
`expectBinary` is set. -/
def classify (expectBinary : Bool) (res : Response) (parsedBody : JsVal) : Outcome :=
  if jsValTruthy parsedBody = true ∧ hasOwnProp parsedBody ("error") = true ∧
     hasOwnProp parsedBody ("code") = true ∧ hasOwnProp parsedBody ("errorMessage") = true ∧
     hasOwnProp parsedBody ("errorNum") = true then
    Outcome.appError parsedBody
  else if 400 ≤ res.statusCode then
    Outcome.httpError parsedBody res.statusCode
  else
    Outcome.success (if expectBinary = true then JsVal.buf res.body else parsedBody)

/-- The resolve continuation built in `Connection.request`
(connection.ts lines 284-322).  When the body is non-empty and the
content-type matches `MIME_JSON`, a decode is attempted; on decode failure
the error is propagated (`cb(e)` with `e.response = res`) unless
`expectBinary` was requested, in which case the failure is swallowed and
`parsedBody` keeps the raw body.  Otherwise the body is delivered as a
UTF-8 string unless `expectBinary` is set (a node `Buffer` is always
truthy, so the JS guard `res.body && !expectBinary` reduces to
`!expectBinary`). -/
def resolveCont (expectBinary : Bool) (res : Response) : Outcome :=
  if 0 < res.body.length ∧ ctMatchesJson (lookupHeader res.headers ("content-type")) = true then
    match jsonParse res.body with
    | some j => classify expectBinary res (JsVal.json j)
    | none =>
      if expectBinary = true then classify expectBinary res (JsVal.buf res.body)
      else Outcome.parseError
  else if expectBinary = false then
    classify expectBinary res (JsVal.str res.body)
  else
    classify expectBinary res (JsVal.buf res.body)

/-- The `LoadBalancingStrategy` union type (connection.ts line 19). -/
inductive LoadBalancingStrategy where
| NONE
| ROUND_ROBIN
| ONE_RANDOM
deriving Repr, DecidableEq

/-- A queued or in-flight task (connection.ts lines 42-53), reduced to the
fields the scheduler reads: the optional pinned host index (set from
`RequestOptions.host` at submission, overwritten by a leader redirect) and
an identifier standing for the task's wire options and continuations. -/
structure Task where
  host : Option Nat
  id : Nat
deriving Repr, DecidableEq

/-- The scheduler-owned mutable state of a `Connection`
(connection.ts lines 69-81).  `hosts` records the URL each transport
handle was created for (`createRequest(url, ...)` at line 197), so
`hosts.length` mirrors `this._hosts.length` and growth of `hosts` mirrors
creation of transport handles. -/
structure ConnState where
  activeTasks : Nat
  maxTasks : Nat
  queue : List Task
  urls : List String
  hosts : List String
  activeHost : Nat
  strategy : LoadBalancingStrategy
  useFailOver : Bool
deriving Repr, DecidableEq

/-- `Connection._sanitizeEndpointUrl` (connection.ts lines 183-187):
rewrites a leading `tcp:` scheme to `http:` and `ssl:` to `https:`. -/
def sanitizeEndpointUrl (url : String) : String :=
  if (("tcp:").toList).isPrefixOf url.toList then "http:" ++ String.mk (url.toList.drop 4)
  else if (("ssl:").toList).isPrefixOf url.toList then "https:" ++ String.mk (url.toList.drop 4)
  else url

/-- `Array.prototype.indexOf` on a string list: index of the first
occurrence.  (JS returns `-1` when the element is absent; this model
returns the length instead.  Every use below looks up an element that is
proved to be present, where the two agree.) -/
def jsIndexOf (l : List String) (a : String) : Nat :=
  match l with
  | [] => 0
  | b :: bs => if b = a then 0 else jsIndexOf bs a + 1

/-- `Connection.addToHostList` (connection.ts lines 189-201): sanitize all
URLs, append the ones not already registered (creating one transport handle
per appended URL, in call order), and return the index of every input URL
in the full registry. -/
def addToHostList (s : ConnState) (urls : List String) : ConnState × List Nat :=
  let cleanUrls := urls.map sanitizeEndpointUrl
  let newUrls := cleanUrls.filter (fun url => decide (url ∉ s.urls))
  ({ s with urls := s.urls ++ newUrls, hosts := s.hosts ++ newUrls },
   cleanUrls.map (fun url => jsIndexOf (s.urls ++ newUrls) url))

/-- The recognized configuration (connection.ts lines 55-66), with
`agentOptions` reduced to the two fields the constructor reads.  `none`
models an absent option. -/
structure Config where
  url : Option (List String) := none
  isAbsolute : Bool := false
  loadBalancingStrategy : Option LoadBalancingStrategy := none
  maxSockets : Option Nat := none
  keepAlive : Option Bool := none
deriving Repr, DecidableEq

/-- The `Connection` constructor (connection.ts lines 83-119) on a
non-browser runtime: merge `agentOptions` over the defaults
`maxSockets: 3, keepAlive: true`; set `_maxTasks` to
`maxSockets || 3`, doubled when `keepAlive` is truthy; default the
strategy to `NONE` and derive `_useFailOver`; register the configured URLs
(default `http://localhost:8529`); choose the initial active host —
`Math.floor(Math.random() * this._hosts.length)`, modelled by the `rand`
parameter, under `ONE_RANDOM`, otherwise `0`. -/
def connInit (cfg : Config) (rand : Nat) : ConnState :=
  let strategy := cfg.loadBalancingStrategy.getD LoadBalancingStrategy.NONE
  let ms := cfg.maxSockets.getD 3
  let base := if ms = 0 then 3 else ms
  let s0 : ConnState :=
    { activeTasks := 0,
      maxTasks := if cfg.keepAlive.getD true = true then base * 2 else base,
      queue := [], urls := [], hosts := [], activeHost := 0, strategy := strategy,
      useFailOver := decide (strategy ≠ LoadBalancingStrategy.ROUND_ROBIN) }
  let s1 := (addToHostList s0 (cfg.url.getD [("http://localhost:8529")])).fst
  if strategy = LoadBalancingStrategy.ONE_RANDOM then
    { s1 with activeHost := rand % s1.hosts.length }
  else s1

/-- One outcome of a completed transport call, as the callback at
connection.ts line 135 receives it: a transport-level error (`err`
non-null, no HTTP response) or a wire response. -/
inductive TransportResult where
| err
| res (r : Response)
deriving Repr, DecidableEq

/-- How the completion branch left the task: terminated through
`task.reject` (a `TransportError` outcome), terminated through
`task.resolve` with the response and the host that answered, or requeued by
a leader redirect (not terminal). -/
inductive TaskEnd where
| rejected
| resolved (r : Response) (host : Nat)
| requeued
deriving Repr, DecidableEq

/-- Truthiness of `response.headers[k]`: present and non-empty. -/
def headerTruthy (r : Response) (k : String) : Bool :=
  match lookupHeader r.headers k with
  | some v => decide (v ≠ "")
  | none => false

/-- The completion callback body of `Connection._runQueue`
(connection.ts lines 135-163), up to its trailing `this._runQueue()`:
decrement the active-task counter; on a transport error advance the active
host (failover) when more than one host is registered, the active host is
still the one that failed and failover is enabled, then reject the task; on
a 503 response carrying a truthy `x-arango-endpoint` header register that
URL, pin the task to the returned index, move the active host to it when
the answering host was the active one, and push the task to the back of the
queue; otherwise resolve the task with the response. -/
def handleCompletion (s : ConnState) (task : Task) (host : Nat) (result : TransportResult) :
    ConnState × TaskEnd :=
  let s1 := { s with activeTasks := s.activeTasks - 1 }
  match result with
  | TransportResult.err =>
    if 1 < s1.hosts.length ∧ s1.activeHost = host ∧ s1.useFailOver = true then
      ({ s1 with activeHost := (s1.activeHost + 1) % s1.hosts.length }, TaskEnd.rejected)
    else (s1, TaskEnd.rejected)
  | TransportResult.res r =>
    if r.statusCode = 503 ∧ headerTruthy r ("x-arango-endpoint") = true then
      let p := addToHostList s1 [(lookupHeader r.headers ("x-arango-endpoint")).getD ""]
      let index := p.snd.headD 0
      let s2 := if p.fst.activeHost = host then { p.fst with activeHost := index } else p.fst
      ({ s2 with queue := s2.queue ++ [{ task with host := some index }] }, TaskEnd.requeued)
    else (s1, TaskEnd.resolved r host)

/-- The dispatching front half of `Connection._runQueue`
(connection.ts lines 125-134): return unchanged when the queue is empty or
the concurrency cap is reached; otherwise shift the oldest task, target its
pinned host if any — otherwise the current active host, advancing the
active index (mod `hosts.length`) under `ROUND_ROBIN` — increment the
active-task counter and report the dispatched task with its target host. -/
def runQueueStep (s : ConnState) : ConnState × Option (Task × Nat) :=
  match s.queue with
  | [] => (s, none)
  | task :: rest =>
    if s.maxTasks ≤ s.activeTasks then (s, none)
    else
      ({ s with queue := rest,
                activeHost := if task.host = none ∧ s.strategy = LoadBalancingStrategy.ROUND_ROBIN
                              then (s.activeHost + 1) % s.hosts.length else s.activeHost,
                activeTasks := s.activeTasks + 1 },
       some (task, task.host.getD s.activeHost))

/-- Whole-connection execution state: the scheduler state plus the
currently dispatched (in-flight) calls and a log of every dispatch target,
in dispatch order. -/
structure Machine where
  conn : ConnState
  inflight : List (Task × Nat)
  dispatchLog : List Nat
deriving Repr, DecidableEq

/-- Perform one `_runQueue` dispatch attempt on the machine: at most one
task moves from the queue into flight (further dispatches happen only
through later completion callbacks, each of which re-runs `_runQueue`). -/
def dispatchFrom (m : Machine) : Machine :=
  match runQueueStep m.conn with
  | (s, none) => { m with conn := s }
  | (s, some (task, host)) =>
    { conn := s, inflight := m.inflight ++ [(task, host)],
      dispatchLog := m.dispatchLog ++ [host] }

/-- An external event: a caller submits a request (`Connection.request`
pushes the task and calls `this._runQueue()`, lines 274-325), or the
transport completes the `k`-th in-flight call with the given result (the
callback runs `handleCompletion` and then `this._runQueue()`).  Completion
order is chosen by the environment, hence the free index `k`. -/
inductive Event where
| submit (t : Task)
| complete (k : Nat) (result : TransportResult)
deriving Repr, DecidableEq

/-- One event step of the machine. -/
def stepEvent (m : Machine) (e : Event) : Machine :=
  match e with
  | Event.submit t =>
    dispatchFrom { m with conn := { m.conn with queue := m.conn.queue ++ [t] } }
  | Event.complete k result =>
    match m.inflight[k]? with
    | none => m
    | some (task, host) =>
      dispatchFrom
        { conn := (handleCompletion m.conn task host result).fst,
          inflight := m.inflight.eraseIdx k,
          dispatchLog := m.dispatchLog }

/-- Run a list of events. -/
def runEvents (m : Machine) (es : List Event) : Machine := es.foldl stepEvent m

/-- A freshly constructed connection: no task queued, none in flight. -/
def initMachine (cfg : Config) (rand : Nat) : Machine :=
  { conn := connInit cfg rand, inflight := [], dispatchLog := [] }

/-- The wire body after the encoding step of `Connection.request`
(connection.ts lines 243-259): left untouched (binary pass-through or a
falsy body), or replaced by an encoded string. -/
inductive WireBody where
| empty
| raw (b : Json)
| text (s : String)
deriving Repr

/-- `String(body)` for the non-object truthy values reaching the
`body = String(body)` branch (objects and arrays never reach it, the
`typeof body === "object"` guard sends them to the JSON branches). -/
def scalarString : Json → String
| Json.bool true => "true"
| Json.bool false => "false"
| Json.num n => toString n
| Json.str s => s
| _ => ""

/-- CRLF, the NDJSON line separator used for `isJsonStream` bodies. -/
def crlf : String := "\r\n"

/-- The body-encoding step of `Connection.request`
(connection.ts lines 243-259).  Returns the wire body and the computed
`contentType`; `none` models the `TypeError` thrown by `body.map` when
`isJsonStream` is set on a truthy object that is not an array. -/
def encodeBody (body : Option Json) (isBinary isJsonStream : Bool) :
    Option (WireBody × String) :=
  if isBinary = true then
    some ((match body with
           | none => WireBody.empty
           | some b => WireBody.raw b), "application/octet-stream")
  else
    match body with
    | none => some (WireBody.empty, "text/plain")
    | some b =>
      if jsTruthy b = true then
        if jsTypeofObject b = true then
          if isJsonStream = true then
            match b with
            | Json.arr xs =>
              some (WireBody.text (String.intercalate crlf (xs.map stringifyJson) ++ crlf),
                    "application/x-ldjson")
            | _ => none
          else some (WireBody.text (stringifyJson b), "application/json")
        else some (WireBody.text (scalarString b), "text/plain")
      else some (WireBody.raw b, "text/plain")

/-- Property read on a JS object literal built by spreads: the LAST binding
of a key wins, so look in the tail first. -/
def jsObjGet (hs : List (String × String)) (k : String) : Option String :=
  match hs with
  | [] => none
  | (k2, v) :: rest =>
    match jsObjGet rest k with
    | some r => some r
    | none => if k2 = k then some v else none

/-- The header object sent on the wire
(connection.ts lines 261-272 and 278): connection-wide defaults, then
`content-type`, the `x-arango-version` header and — on a non-browser
runtime — the UTF-8 `content-length`, all overridable by the per-call
headers spread last. -/
def requestHeaders (connHeaders : List (String × String)) (arangoVersion : Nat)
    (contentType : String) (contentLength : Nat) (reqHeaders : List (String × String)) :
    List (String × String) :=
  connHeaders ++
    [(("content-type"), contentType), (("x-arango-version"), toString arangoVersion),
     (("content-length"), toString contentLength)] ++
    reqHeaders

/-- Does a decoded JSON value own all four application-error fields
`error`, `code`, `errorMessage`, `errorNum` (the shape tested at
connection.ts lines 306-312)? -/
def hasErrorProps (j : Json) : Bool :=
  hasOwnProp (JsVal.json j) ("error") && hasOwnProp (JsVal.json j) ("code") &&
  hasOwnProp (JsVal.json j) ("errorMessage") && hasOwnProp (JsVal.json j) ("errorNum")

/-- Is a decoded JSON value an object whose member-name set is EXACTLY
`{error, code, errorMessage, errorNum}` — no further fields?  (The literal
reading of the specification's "exposing exactly the four fields".) -/
def exposesExactlyErrorFields (j : Json) : Bool :=
  match j with
  | Json.obj fs =>
    (fs.map Prod.fst).all (fun k => decide (k ∈ [("error"), ("code"), ("errorMessage"), ("errorNum")])) &&
    ([("error"), ("code"), ("errorMessage"), ("errorNum")] : List String).all
      (fun k => decide (k ∈ fs.map Prod.fst))
  | _ => false

/-- The scheduler's concurrency invariant: the active-task counter counts
exactly the in-flight calls and never exceeds the cap. -/
def MInv (m : Machine) : Prop :=
  m.conn.activeTasks = m.inflight.length ∧ m.conn.activeTasks ≤ m.conn.maxTasks

/-- A completed response whose apparently-JSON body does not decode. -/
def c1Res : Response :=
  { statusCode := 200, headers := [("content-type", "application/json")], body := "nope" }

/-- A status-200 response carrying the four-field application-error body. -/
def c2Res : Response :=
  { statusCode := 200, headers := [("content-type", "application/json")],
    body := "\x7b\"error\":true,\"code\":409,\"errorNum\":1200,\"errorMessage\":\"conflict\"\x7d" }

/-- The decoded value of `c2Res.body`. -/
def c2Json : Json :=
  Json.obj [(("error"), Json.bool true), (("code"), Json.num 409), (("errorNum"), Json.num 1200),
    (("errorMessage"), Json.str ("conflict"))]

/-- A status-200 response whose body has the four error fields AND one
further field. -/
def c2ExtraRes : Response :=
  { statusCode := 200, headers := [("content-type", "application/json")],
    body := "\x7b\"error\":true,\"code\":409,\"errorNum\":1200,\"errorMessage\":\"conflict\",\"extra\":1\x7d" }

/-- The decoded value of `c2ExtraRes.body`. -/
def c2ExtraJson : Json :=
  Json.obj [(("error"), Json.bool true), (("code"), Json.num 409), (("errorNum"), Json.num 1200),
    (("errorMessage"), Json.str ("conflict")), (("extra"), Json.num 1)]

/-- A single-host connection state with one call in flight. -/
def c3State : ConnState :=
  { activeTasks := 1, maxTasks := 6, queue := [], urls := [("http://a")], hosts := [("http://a")],
    activeHost := 0, strategy := LoadBalancingStrategy.NONE, useFailOver := true }

/-- A leader-redirect response pointing at a new endpoint. -/
def c3Res : Response :=
  { statusCode := 503, headers := [("x-arango-endpoint", "http://leader:8529")], body := "" }

/-- A single-host connection state with one call in flight. -/
def c4State : ConnState :=
  { activeTasks := 1, maxTasks := 6, queue := [], urls := [("http://a")], hosts := [("http://a")],
    activeHost := 0, strategy := LoadBalancingStrategy.NONE, useFailOver := true }

/-- `maxSockets: 3, keepAlive: true`: concurrency cap 6. -/
def c5Cfg : Config := { maxSockets := some 3, keepAlive := some true }

/-- Ten submissions against a transport that never completes (no complete
event ever fires). -/
def c5TenSubmits : List Event :=
  (List.range 10).map (fun i => Event.submit { host := none, id := i })

/-- An empty host registry to exercise registration. -/
def c6State : ConnState :=
  { activeTasks := 0, maxTasks := 6, queue := [], urls := [], hosts := [], activeHost := 0,
    strategy := LoadBalancingStrategy.NONE, useFailOver := true }

/-- Three hosts, `ROUND_ROBIN`, concurrency cap 1
(`maxSockets: 1, keepAlive: false`). -/
def c7Cfg : Config :=
  { url := some [("http://h0"), ("http://h1"), ("http://h2")],
    loadBalancingStrategy := some LoadBalancingStrategy.ROUND_ROBIN,
    maxSockets := some 1, keepAlive := some false }

/-- A plain success response. -/
def c7OkRes : Response := { statusCode := 200, headers := [], body := "" }

/-- Three sequential requests: each submitted only after the previous one
resolved. -/
def c7Events : List Event :=
  [Event.submit { host := none, id := 1 }, Event.complete 0 (TransportResult.res c7OkRes),
   Event.submit { host := none, id := 2 }, Event.complete 0 (TransportResult.res c7OkRes),
   Event.submit { host := none, id := 3 }]

/-- A round-robin connection state whose queue holds one unpinned task. -/
def c7State : ConnState :=
  { activeTasks := 0, maxTasks := 1, queue := [{ host := none, id := 9 }],
    urls := [("http://h0"), ("http://h1"), ("http://h2")],
    hosts := [("http://h0"), ("http://h1"), ("http://h2")],
    activeHost := 0, strategy := LoadBalancingStrategy.ROUND_ROBIN, useFailOver := false }

/-- A single registered host under the default strategy. -/
def c9Cfg : Config := { url := some [("http://a")] }

/-- A 503 leader redirect naming a second endpoint. -/
def c9RedirectRes : Response :=
  { statusCode := 503, headers := [("x-arango-endpoint", "http://b")], body := "" }

/-- One request submitted with the explicit host index 0, answered by a
leader redirect. -/
def c9Events : List Event :=
  [Event.submit { host := some 0, id := 1 }, Event.complete 0 (TransportResult.res c9RedirectRes)]

/-- A round-robin state whose queue holds one task pinned to host 2. -/
def c9State : ConnState :=
  { activeTasks := 0, maxTasks := 6, queue := [{ host := some 2, id := 4 }],
    urls := [("http://h0"), ("http://h1"), ("http://h2")],
    hosts := [("http://h0"), ("http://h1"), ("http://h2")],
    activeHost := 0, strategy := LoadBalancingStrategy.ROUND_ROBIN, useFailOver := false }

/-- `maxSockets: 0` (falsy) with `keepAlive: true`. -/
def c10Cfg : Config := { maxSockets := some 0, keepAlive := some true }

end Arango

namespace Arango

theorem jsIndexOf_lt_length {l : List String} {a : String} (h : a ∈ l) :
    jsIndexOf l a < l.length := by
  induction l with
  | nil => cases h
  | cons b bs ih =>
    by_cases hba : b = a
    · simp [jsIndexOf, hba]
    · rcases List.mem_cons.mp h with h1 | h1
      · exact absurd h1.symm hba
      · simpa [jsIndexOf, hba] using ih h1

theorem jsIndexOf_getD {l : List String} {a : String} (h : a ∈ l) :
    l.getD (jsIndexOf l a) "" = a := by
  induction l with
  | nil => cases h
  | cons b bs ih =>
    by_cases hba : b = a
    · simp [jsIndexOf, hba]
    · rcases List.mem_cons.mp h with h1 | h1
      · exact absurd h1.symm hba
      · simpa [jsIndexOf, hba] using ih h1

theorem jsIndexOf_append_of_mem {l1 : List String} (l2 : List String) {a : String}
    (h : a ∈ l1) : jsIndexOf (l1 ++ l2) a = jsIndexOf l1 a := by
  induction l1 with
  | nil => cases h
  | cons b bs ih =>
    by_cases hba : b = a
    · simp [jsIndexOf, hba]
    · rcases List.mem_cons.mp h with h1 | h1
      · exact absurd h1.symm hba
      · simp [jsIndexOf, hba, ih h1]

theorem length_eraseIdx_of_lt {α : Type} {l : List α} {k : Nat} (h : k < l.length) :
    (l.eraseIdx k).length = l.length - 1 := by
  induction l generalizing k with
  | nil => cases h
  | cons b bs ih =>
    cases k with
    | zero => simp [List.eraseIdx]
    | succ k2 =>
      have hk : k2 < bs.length := Nat.lt_of_succ_lt_succ h
      cases bs with
      | nil => cases hk
      | cons c cs => simp [List.eraseIdx, ih hk]

theorem addToHostList_activeTasks (s : ConnState) (us : List String) :
    (addToHostList s us).fst.activeTasks = s.activeTasks := rfl

theorem addToHostList_maxTasks (s : ConnState) (us : List String) :
    (addToHostList s us).fst.maxTasks = s.maxTasks := rfl

theorem addToHostList_queue (s : ConnState) (us : List String) :
    (addToHostList s us).fst.queue = s.queue := rfl

theorem addToHostList_activeHost (s : ConnState) (us : List String) :
    (addToHostList s us).fst.activeHost = s.activeHost := rfl

theorem addToHostList_urls (s : ConnState) (us : List String) :
    (addToHostList s us).fst.urls =
      s.urls ++ (us.map sanitizeEndpointUrl).filter (fun url => decide (url ∉ s.urls)) := rfl

theorem addToHostList_hosts (s : ConnState) (us : List String) :
    (addToHostList s us).fst.hosts =
      s.hosts ++ (us.map sanitizeEndpointUrl).filter (fun url => decide (url ∉ s.urls)) := rfl

theorem addToHostList_mem {s : ConnState} {us : List String} {u : String} (h : u ∈ us) :
    sanitizeEndpointUrl u ∈ (addToHostList s us).fst.urls := by
  rw [addToHostList_urls]
  by_cases hm : sanitizeEndpointUrl u ∈ s.urls
  · exact List.mem_append_left _ hm
  · refine List.mem_append_right _ ?_
    refine List.mem_filter.mpr ⟨List.mem_map_of_mem sanitizeEndpointUrl h, ?_⟩
    simpa using hm

theorem runQueueStep_maxTasks (s : ConnState) : (runQueueStep s).fst.maxTasks = s.maxTasks := by
  unfold runQueueStep
  cases s.queue with
  | nil => rfl
  | cons t rest =>
    by_cases hc : s.maxTasks ≤ s.activeTasks
    · simp [hc]
    · simp [hc]

theorem runQueueStep_none {s s2 : ConnState} (h : runQueueStep s = (s2, none)) : s2 = s := by
  unfold runQueueStep at h
  split at h
  · exact (congrArg Prod.fst h).symm
  · split at h
    · exact (congrArg Prod.fst h).symm
    · exact absurd (congrArg Prod.snd h) (by simp)

theorem runQueueStep_some {s s2 : ConnState} {t : Task} {h : Nat}
    (heq : runQueueStep s = (s2, some (t, h))) :
    s2.activeTasks = s.activeTasks + 1 ∧ s.activeTasks < s.maxTasks ∧
      s2.maxTasks = s.maxTasks := by
  unfold runQueueStep at heq
  split at heq
  · exact absurd (congrArg Prod.snd heq) (by simp)
  · rename_i task rest hq
    split at heq
    · exact absurd (congrArg Prod.snd heq) (by simp)
    · rename_i hc
      injection heq with h1 h2
      refine ⟨?_, Nat.lt_of_not_le hc, ?_⟩
      · rw [← h1]
      · rw [← h1]

theorem handleCompletion_activeTasks (s : ConnState) (task : Task) (host : Nat)
    (result : TransportResult) :
    (handleCompletion s task host result).fst.activeTasks = s.activeTasks - 1 := by
  unfold handleCompletion
  cases result with
  | err =>
    by_cases hc : 1 < s.hosts.length ∧ s.activeHost = host ∧ s.useFailOver = true
    · simp [hc]
    · simp [hc]
  | res r =>
    by_cases hc : r.statusCode = 503 ∧ headerTruthy r ("x-arango-endpoint") = true
    · simp only [hc, and_self, if_true]
      split
      · rfl
      · rfl
    · simp [hc]

theorem handleCompletion_maxTasks (s : ConnState) (task : Task) (host : Nat)
    (result : TransportResult) :
    (handleCompletion s task host result).fst.maxTasks = s.maxTasks := by
  unfold handleCompletion
  cases result with
  | err =>
    by_cases hc : 1 < s.hosts.length ∧ s.activeHost = host ∧ s.useFailOver = true
    · simp [hc]
    · simp [hc]
  | res r =>
    by_cases hc : r.statusCode = 503 ∧ headerTruthy r ("x-arango-endpoint") = true
    · simp only [hc, and_self, if_true]
      split
      · rfl
      · rfl
    · simp [hc]

theorem dispatchFrom_maxTasks (m : Machine) :
    (dispatchFrom m).conn.maxTasks = m.conn.maxTasks := by
  have hmax := runQueueStep_maxTasks m.conn
  unfold dispatchFrom
  cases hq : runQueueStep m.conn with
  | mk s o =>
    rw [hq] at hmax
    cases o with
    | none => exact hmax
    | some p =>
      cases p with
      | mk t h => exact hmax

theorem dispatchFrom_MInv {m : Machine} (hm : MInv m) : MInv (dispatchFrom m) := by
  unfold dispatchFrom
  cases hq : runQueueStep m.conn with
  | mk s o =>
    cases o with
    | none =>
      have hs := runQueueStep_none hq
      subst hs
      exact hm
    | some p =>
      cases p with
      | mk t h =>
        have hs := runQueueStep_some hq
        constructor
        · simp [hs.1, hm.1]
        · have hmax := hs.2.2
          have hlt := hs.2.1
          simp only []
          rw [hs.1, hmax]
          exact Nat.succ_le_of_lt (Nat.lt_of_le_of_lt (Nat.le_of_eq rfl) hlt)

theorem stepEvent_maxTasks (m : Machine) (e : Event) :
    (stepEvent m e).conn.maxTasks = m.conn.maxTasks := by
  cases e with
  | submit t => exact dispatchFrom_maxTasks _
  | complete k result =>
    show (match m.inflight[k]? with
          | none => m
          | some (task, host) =>
            dispatchFrom
              { conn := (handleCompletion m.conn task host result).fst,
                inflight := m.inflight.eraseIdx k,
                dispatchLog := m.dispatchLog }).conn.maxTasks = m.conn.maxTasks
    cases m.inflight[k]? with
    | none => rfl
    | some p =>
      cases p with
      | mk task host =>
        exact (dispatchFrom_maxTasks _).trans (handleCompletion_maxTasks m.conn task host result)

theorem stepEvent_MInv {m : Machine} (e : Event) (hm : MInv m) : MInv (stepEvent m e) := by
  cases e with
  | submit t => exact dispatchFrom_MInv ⟨hm.1, hm.2⟩
  | complete k result =>
    show MInv (match m.inflight[k]? with
          | none => m
          | some (task, host) =>
            dispatchFrom
              { conn := (handleCompletion m.conn task host result).fst,
                inflight := m.inflight.eraseIdx k,
                dispatchLog := m.dispatchLog })
    cases hin : m.inflight[k]? with
    | none => exact hm
    | some p =>
      cases p with
      | mk task host =>
        have hk : k < m.inflight.length := by
          by_contra hk2
          rw [List.getElem?_eq_none (Nat.le_of_not_lt hk2)] at hin
          cases hin
        refine dispatchFrom_MInv ⟨?_, ?_⟩
        · show (handleCompletion m.conn task host result).fst.activeTasks =
            (m.inflight.eraseIdx k).length
          rw [handleCompletion_activeTasks, length_eraseIdx_of_lt hk, hm.1]
        · show (handleCompletion m.conn task host result).fst.activeTasks ≤
            (handleCompletion m.conn task host result).fst.maxTasks
          rw [handleCompletion_activeTasks, handleCompletion_maxTasks]
          exact Nat.le_trans (Nat.sub_le _ _) hm.2

theorem runEvents_MInv {m : Machine} (es : List Event) (hm : MInv m) :
    MInv (runEvents m es) := by
  induction es generalizing m with
  | nil => exact hm
  | cons e es ih => exact ih (stepEvent_MInv e hm)

theorem runEvents_maxTasks (m : Machine) (es : List Event) :
    (runEvents m es).conn.maxTasks = m.conn.maxTasks := by
  induction es generalizing m with
  | nil => rfl
  | cons e es ih => exact (ih (stepEvent m e)).trans (stepEvent_maxTasks m e)

theorem connInit_activeTasks (cfg : Config) (rand : Nat) :
    (connInit cfg rand).activeTasks = 0 := by
  simp only [connInit]
  repeat' split
  all_goals rfl

theorem connInit_maxTasks (cfg : Config) (rand : Nat) :
    (connInit cfg rand).maxTasks =
      (if cfg.keepAlive.getD true = true
       then (if cfg.maxSockets.getD 3 = 0 then 3 else cfg.maxSockets.getD 3) * 2
       else (if cfg.maxSockets.getD 3 = 0 then 3 else cfg.maxSockets.getD 3)) := by
  simp only [connInit]
  repeat' split
  all_goals rfl

theorem connInit_useFailOver (cfg : Config) (rand : Nat) :
    (connInit cfg rand).useFailOver =
      decide ((cfg.loadBalancingStrategy.getD LoadBalancingStrategy.NONE) ≠
        LoadBalancingStrategy.ROUND_ROBIN) := by
  simp only [connInit]
  repeat' split
  all_goals rfl

theorem connInit_strategy (cfg : Config) (rand : Nat) :
    (connInit cfg rand).strategy = cfg.loadBalancingStrategy.getD LoadBalancingStrategy.NONE := by
  simp only [connInit]
  repeat' split
  all_goals rfl

theorem initMachine_MInv (cfg : Config) (rand : Nat) : MInv (initMachine cfg rand) := by
  constructor
  · simpa [initMachine] using connInit_activeTasks cfg rand
  · simp [initMachine, connInit_activeTasks]

theorem hasOwnProp_truthy {j : Json} {k : String} (h : hasOwnProp (JsVal.json j) k = true) :
    jsValTruthy (JsVal.json j) = true := by
  cases j with
  | obj fs => rfl
  | null => simp [hasOwnProp] at h
  | bool b => simp [hasOwnProp] at h
  | num n => simp [hasOwnProp] at h
  | str s => simp [hasOwnProp] at h
  | arr xs => simp [hasOwnProp] at h

theorem resolveCont_decoded {res : Response} {eb : Bool} {j : Json}
    (hbody : 0 < res.body.length)
    (hct : ctMatchesJson (lookupHeader res.headers ("content-type")) = true)
    (hparse : jsonParse res.body = some j) :
    resolveCont eb res = classify eb res (JsVal.json j) := by
  unfold resolveCont
  rw [if_pos (⟨hbody, hct⟩ : 0 < res.body.length ∧
    ctMatchesJson (lookupHeader res.headers ("content-type")) = true), hparse]

theorem resolveCont_decode_failed {res : Response} {eb : Bool}
    (hbody : 0 < res.body.length)
    (hct : ctMatchesJson (lookupHeader res.headers ("content-type")) = true)
    (hparse : jsonParse res.body = none) :
    resolveCont eb res =
      (if eb = true then classify eb res (JsVal.buf res.body) else Outcome.parseError) := by
  unfold resolveCont
  rw [if_pos (⟨hbody, hct⟩ : 0 < res.body.length ∧
    ctMatchesJson (lookupHeader res.headers ("content-type")) = true), hparse]

/-- Claim C1: the specification's sentence is refuted by the code.  For a
completed response with a non-empty body whose content-type matches the
JSON pattern and whose body fails to decode, the code at
connection.ts lines 287-300 propagates the failure as an error carrying
the response precisely when the binary flag was NOT requested; when the
binary flag WAS requested the failure is swallowed and the raw body flows
on through normal classification.  At the concrete response `c1Res`
(status 200, `content-type: application/json`, body `nope`): with the
binary flag unset the caller gets the decode error, not a text delivery;
with the binary flag set the caller gets a Success delivering the raw
bytes, not an error. -/
theorem C1_counterexample :
    resolveCont false c1Res = Outcome.parseError ∧
    Outcome.parseError ≠ Outcome.success (JsVal.str ("nope")) ∧
    resolveCont true c1Res = Outcome.success (JsVal.buf ("nope")) ∧
    Outcome.success (JsVal.buf ("nope")) ≠ Outcome.parseError := by
  refine ⟨rfl, ?_, rfl, ?_⟩
  · intro h
    cases h
  · intro h
    cases h

/-- Claim C1 (amended): for every completed response whose body is
non-empty, whose content-type matches the JSON pattern and whose body
fails to JSON-decode — if the binary flag was NOT requested, the decode
failure is propagated as an error carrying the original response; if the
binary flag WAS requested, the failure is swallowed and the raw body
proceeds through normal classification (HttpError when the status is at
least 400, otherwise Success delivering the raw bytes). -/
theorem C1_decode_failure (res : Response) (eb : Bool)
    (hbody : 0 < res.body.length)
    (hct : ctMatchesJson (lookupHeader res.headers ("content-type")) = true)
    (hparse : jsonParse res.body = none) :
    (eb = false → resolveCont eb res = Outcome.parseError) ∧
    (eb = true → resolveCont eb res =
      (if 400 ≤ res.statusCode
       then Outcome.httpError (JsVal.buf res.body) res.statusCode
       else Outcome.success (JsVal.buf res.body))) := by
  constructor
  · intro he
    subst he
    rw [resolveCont_decode_failed hbody hct hparse]
    rfl
  · intro he
    subst he
    rw [resolveCont_decode_failed hbody hct hparse, if_pos (Eq.refl true)]
    unfold classify
    rw [if_neg ?hc]
    case hc =>
      intro hcond
      simp [hasOwnProp] at hcond
    by_cases hs : 400 ≤ res.statusCode
    · rw [if_pos hs, if_pos hs]
    · rw [if_neg hs, if_neg hs]
      rfl

/-- Claim C1 amended, instantiated at the failing body `nope` for both
values of the binary flag. -/
theorem C1_witness :
    resolveCont false c1Res = Outcome.parseError ∧
    resolveCont true c1Res =
      (if 400 ≤ c1Res.statusCode
       then Outcome.httpError (JsVal.buf c1Res.body) c1Res.statusCode
       else Outcome.success (JsVal.buf c1Res.body)) := by
  have h1 := C1_decode_failure c1Res false (by decide) (by rfl) (by rfl)
  have h2 := C1_decode_failure c1Res true (by decide) (by rfl) (by rfl)
  exact ⟨h1.1 rfl, h2.2 rfl⟩

/-- Claim C2: the "exactly the four fields" reading is refuted by the
code.  The check at connection.ts lines 306-312 only requires the four
own properties to be PRESENT; it does not exclude further fields.  The
concrete status-200 response `c2ExtraRes`, whose decoded body carries
`error`, `code`, `errorNum`, `errorMessage` AND a fifth field `extra`,
classifies as ApplicationError even though its body does not expose
exactly the four fields, refuting the claimed equivalence at this
input. -/
theorem C2_counterexample :
    jsonParse c2ExtraRes.body = some c2ExtraJson ∧
    resolveCont false c2ExtraRes = Outcome.appError (JsVal.json c2ExtraJson) ∧
    exposesExactlyErrorFields c2ExtraJson = false := by
  exact ⟨rfl, rfl, rfl⟩

/-- Claim C2 (amended): for every completed response whose body decodes
successfully (non-empty body, JSON-matching content-type), the outcome is
ApplicationError if and only if the decoded value is an object owning AT
LEAST the four fields `error`, `code`, `errorMessage`, `errorNum`
(further fields permitted); the equivalence does not mention the HTTP
status code, so the classification is independent of it. -/
theorem C2_app_error_iff (res : Response) (eb : Bool) (j : Json)
    (hbody : 0 < res.body.length)
    (hct : ctMatchesJson (lookupHeader res.headers ("content-type")) = true)
    (hparse : jsonParse res.body = some j) :
    (resolveCont eb res = Outcome.appError (JsVal.json j) ↔ hasErrorProps j = true) := by
  rw [resolveCont_decoded hbody hct hparse]
  unfold classify
  by_cases hc : jsValTruthy (JsVal.json j) = true ∧ hasOwnProp (JsVal.json j) ("error") = true ∧
      hasOwnProp (JsVal.json j) ("code") = true ∧
      hasOwnProp (JsVal.json j) ("errorMessage") = true ∧
      hasOwnProp (JsVal.json j) ("errorNum") = true
  · rw [if_pos hc]
    constructor
    · intro _
      unfold hasErrorProps
      rw [hc.2.1, hc.2.2.1, hc.2.2.2.1, hc.2.2.2.2]
      rfl
    · intro _
      rfl
  · rw [if_neg hc]
    constructor
    · intro heq
      by_cases hs : 400 ≤ res.statusCode
      · rw [if_pos hs] at heq
        cases heq
      · rw [if_neg hs] at heq
        by_cases he : eb = true
        · rw [if_pos he] at heq
          cases heq
        · rw [if_neg he] at heq
          cases heq
    · intro hep
      exfalso
      apply hc
      simp only [hasErrorProps, Bool.and_eq_true] at hep
      exact ⟨hasOwnProp_truthy hep.1.1.1, hep.1.1.1, hep.1.1.2, hep.1.2, hep.2⟩

/-- Claim C2 amended, instantiated at the specification's own example: a
status-200 response with the four-field error body classifies as
ApplicationError despite the success status. -/
theorem C2_witness :
    resolveCont false c2Res = Outcome.appError (JsVal.json c2Json) := by
  exact (C2_app_error_iff c2Res false c2Json (by decide) (by rfl) (by rfl)).mpr (by rfl)

/-- Claim C3: a completed call answered with status 503 and a non-empty
`x-arango-endpoint` header neither terminates the task nor surfaces any
error: the task is requeued at the BACK of the FIFO queue, pinned to the
index under which the header's URL is registered in the host registry; the
registry and the transport handles become exactly those produced by that
registration; the active host moves to the new index exactly when the host
that answered was the active one; and only the active-task counter is
otherwise touched. -/
theorem C3_leader_redirect (s : ConnState) (task : Task) (host : Nat) (r : Response)
    (h503 : r.statusCode = 503)
    (hh : headerTruthy r ("x-arango-endpoint") = true) :
    (handleCompletion s task host (TransportResult.res r)).snd = TaskEnd.requeued ∧
    (handleCompletion s task host (TransportResult.res r)).fst.urls =
      (addToHostList { s with activeTasks := s.activeTasks - 1 }
        [(lookupHeader r.headers ("x-arango-endpoint")).getD ""]).fst.urls ∧
    (handleCompletion s task host (TransportResult.res r)).fst.hosts =
      (addToHostList { s with activeTasks := s.activeTasks - 1 }
        [(lookupHeader r.headers ("x-arango-endpoint")).getD ""]).fst.hosts ∧
    (handleCompletion s task host (TransportResult.res r)).fst.queue =
      s.queue ++ [{ task with host := some ((addToHostList { s with activeTasks := s.activeTasks - 1 }
        [(lookupHeader r.headers ("x-arango-endpoint")).getD ""]).snd.headD 0) }] ∧
    (handleCompletion s task host (TransportResult.res r)).fst.activeHost =
      (if s.activeHost = host
       then (addToHostList { s with activeTasks := s.activeTasks - 1 }
         [(lookupHeader r.headers ("x-arango-endpoint")).getD ""]).snd.headD 0
       else s.activeHost) ∧
    (handleCompletion s task host (TransportResult.res r)).fst.activeTasks =
      s.activeTasks - 1 := by
  by_cases hah : s.activeHost = host <;>
    simp [handleCompletion, h503, hh, hah, addToHostList_activeHost, addToHostList_queue,
      addToHostList_activeTasks]

/-- Claim C3, instantiated: a single-host connection receives a 503
pointing at `http://leader:8529`; the task is requeued pinned to the fresh
index 1, the registry gains the leader URL, and the active host follows. -/
theorem C3_witness :
    (handleCompletion c3State { host := none, id := 1 } 0 (TransportResult.res c3Res)).snd =
      TaskEnd.requeued ∧
    (handleCompletion c3State { host := none, id := 1 } 0 (TransportResult.res c3Res)).fst.urls =
      [("http://a"), ("http://leader:8529")] ∧
    (handleCompletion c3State { host := none, id := 1 } 0 (TransportResult.res c3Res)).fst.queue =
      [{ host := some 1, id := 1 }] ∧
    (handleCompletion c3State { host := none, id := 1 } 0 (TransportResult.res c3Res)).fst.activeHost = 1 := by
  have h := C3_leader_redirect c3State { host := none, id := 1 } 0 c3Res (by rfl) (by rfl)
  refine ⟨h.1, ?_, ?_, ?_⟩
  · rw [h.2.1]
    decide
  · rw [h.2.2.2.1]
    decide
  · rw [h.2.2.2.2.1]
    decide

/-- Claim C4: a transport-level error terminates the task through
`task.reject` (a TransportError outcome) without ever requeuing it — the
queue, registry and transport handles are untouched — and the active host
index advances by one modulo the registry length exactly when more than
one host is registered, the active index still equals the host that
failed, and failover is enabled; with exactly one registered host the
active index is unchanged.  Failover-enabled means the strategy is not
`ROUND_ROBIN`, as the constructor derives it. -/
theorem C4_transport_error (s : ConnState) (task : Task) (host : Nat) :
    (handleCompletion s task host TransportResult.err).snd = TaskEnd.rejected ∧
    (handleCompletion s task host TransportResult.err).fst.queue = s.queue ∧
    (handleCompletion s task host TransportResult.err).fst.urls = s.urls ∧
    (handleCompletion s task host TransportResult.err).fst.hosts = s.hosts ∧
    (handleCompletion s task host TransportResult.err).fst.activeHost =
      (if 1 < s.hosts.length ∧ s.activeHost = host ∧ s.useFailOver = true
       then (s.activeHost + 1) % s.hosts.length else s.activeHost) ∧
    (s.hosts.length = 1 →
      (handleCompletion s task host TransportResult.err).fst.activeHost = s.activeHost) ∧
    (∀ (cfg : Config) (rand : Nat),
      ((connInit cfg rand).useFailOver = true ↔
        (connInit cfg rand).strategy ≠ LoadBalancingStrategy.ROUND_ROBIN)) := by
  refine ⟨?_, ?_, ?_, ?_, ?_, ?_, ?_⟩
  · by_cases hc : 1 < s.hosts.length ∧ s.activeHost = host ∧ s.useFailOver = true <;>
      simp [handleCompletion, hc]
  · by_cases hc : 1 < s.hosts.length ∧ s.activeHost = host ∧ s.useFailOver = true <;>
      simp [handleCompletion, hc]
  · by_cases hc : 1 < s.hosts.length ∧ s.activeHost = host ∧ s.useFailOver = true <;>
      simp [handleCompletion, hc]
  · by_cases hc : 1 < s.hosts.length ∧ s.activeHost = host ∧ s.useFailOver = true <;>
      simp [handleCompletion, hc]
  · by_cases hc : 1 < s.hosts.length ∧ s.activeHost = host ∧ s.useFailOver = true <;>
      simp [handleCompletion, hc]
  · intro hone
    by_cases hc : 1 < s.hosts.length ∧ s.activeHost = host ∧ s.useFailOver = true
    · exact absurd (hone ▸ hc.1) (by decide)
    · simp [handleCompletion, hc]
  · intro cfg rand
    rw [connInit_useFailOver, connInit_strategy]
    simp

/-- Claim C4, instantiated at a single-host connection: the task is
rejected and the active host index stays 0. -/
theorem C4_witness :
    (handleCompletion c4State { host := none, id := 7 } 0 TransportResult.err).snd =
      TaskEnd.rejected ∧
    (handleCompletion c4State { host := none, id := 7 } 0 TransportResult.err).fst.activeHost =
      c4State.activeHost ∧
    (handleCompletion c4State { host := none, id := 7 } 0 TransportResult.err).fst.queue =
      c4State.queue := by
  have h := C4_transport_error c4State { host := none, id := 7 } 0
  exact ⟨h.1, h.2.2.2.2.2.1 (by rfl), h.2.1⟩

/-- Claim C5: along every event trace from a freshly constructed
connection, the active-task counter counts exactly the in-flight calls and
never exceeds the cap `maxTasks`; a configured nonzero `maxSockets` yields
the cap `maxSockets × (2 if keepAlive else 1)`; and with
`maxSockets: 3, keepAlive: true` (cap 6), ten submissions against a
transport that never completes leave exactly 6 tasks dispatched and 4
queued. -/
theorem C5_concurrency_cap :
    (∀ (cfg : Config) (rand : Nat) (events : List Event),
       (runEvents (initMachine cfg rand) events).conn.activeTasks =
         (runEvents (initMachine cfg rand) events).inflight.length ∧
       (runEvents (initMachine cfg rand) events).inflight.length ≤ (connInit cfg rand).maxTasks) ∧
    (∀ (cfg : Config) (rand : Nat) (ms : Nat), cfg.maxSockets = some ms → ms ≠ 0 →
       (connInit cfg rand).maxTasks = ms * (if cfg.keepAlive.getD true = true then 2 else 1)) ∧
    ((connInit c5Cfg 0).maxTasks = 6 ∧
     (runEvents (initMachine c5Cfg 0) c5TenSubmits).inflight.length = 6 ∧
     (runEvents (initMachine c5Cfg 0) c5TenSubmits).conn.queue.length = 4) := by
  refine ⟨?_, ?_, by decide, by decide, by decide⟩
  · intro cfg rand events
    have hI := runEvents_MInv events (initMachine_MInv cfg rand)
    refine ⟨hI.1, ?_⟩
    have h2 := hI.2
    rw [hI.1, runEvents_maxTasks (initMachine cfg rand) events] at h2
    exact h2
  · intro cfg rand ms hms h0
    rw [connInit_maxTasks, hms]
    by_cases hk : cfg.keepAlive.getD true = true <;> simp [hk, h0]

/-- Claim C5, the cap formula instantiated at `maxSockets: 3,
keepAlive: true`. -/
theorem C5_witness :
    (connInit c5Cfg 0).maxTasks = 3 * (if c5Cfg.keepAlive.getD true = true then 2 else 1) :=
  C5_concurrency_cap.2.1 c5Cfg 0 3 (by rfl) (by decide)

theorem addToHostList_indices (s : ConnState) (us : List String) :
    (addToHostList s us).snd =
      us.map (fun u => jsIndexOf (addToHostList s us).fst.urls (sanitizeEndpointUrl u)) := by
  simp only [addToHostList, List.map_map]
  rfl

theorem addToHostList_known {s : ConnState} {u : String}
    (hmem : sanitizeEndpointUrl u ∈ s.urls) :
    addToHostList s [u] = (s, [jsIndexOf s.urls (sanitizeEndpointUrl u)]) := by
  have hfil : (([sanitizeEndpointUrl u]).filter (fun url => decide (url ∉ s.urls))) = [] := by
    simp [hmem]
  simp only [addToHostList, List.map_cons, List.map_nil, hfil, List.append_nil]

/-- Claim C6: host registration returns, for every input URL in input
order, the index of its scheme-normalized form in the full post-call
registry (the entry at that index IS the normalized URL); re-registering a
URL whose normalized form is already known returns the unchanged state —
registry not grown, no transport handle created — together with the
existing first-occurrence index; and registering the same
(possibly differently-schemed) URL twice leaves the state of the first
registration untouched and returns the same index list both times. -/
theorem C6_registry (s : ConnState) (us : List String) :
    (addToHostList s us).snd =
      us.map (fun u => jsIndexOf (addToHostList s us).fst.urls (sanitizeEndpointUrl u)) ∧
    (∀ u, u ∈ us →
      sanitizeEndpointUrl u ∈ (addToHostList s us).fst.urls ∧
      jsIndexOf (addToHostList s us).fst.urls (sanitizeEndpointUrl u) <
        (addToHostList s us).fst.urls.length ∧
      (addToHostList s us).fst.urls.getD
        (jsIndexOf (addToHostList s us).fst.urls (sanitizeEndpointUrl u)) "" =
        sanitizeEndpointUrl u) ∧
    (∀ u, sanitizeEndpointUrl u ∈ s.urls →
      addToHostList s [u] = (s, [jsIndexOf s.urls (sanitizeEndpointUrl u)])) ∧
    (∀ u v, sanitizeEndpointUrl v = sanitizeEndpointUrl u →
      addToHostList (addToHostList s [u]).fst [v] =
        ((addToHostList s [u]).fst, (addToHostList s [u]).snd)) := by
  refine ⟨addToHostList_indices s us, ?_, ?_, ?_⟩
  · intro u hu
    have hm := @addToHostList_mem s us u hu
    exact ⟨hm, jsIndexOf_lt_length hm, jsIndexOf_getD hm⟩
  · intro u hm
    exact addToHostList_known hm
  · intro u v hvu
    have hm1 : sanitizeEndpointUrl u ∈ (addToHostList s [u]).fst.urls :=
      @addToHostList_mem s [u] u (by simp)
    have hm2 : sanitizeEndpointUrl v ∈ (addToHostList s [u]).fst.urls := by
      rw [hvu]
      exact hm1
    rw [addToHostList_known hm2, addToHostList_indices s [u]]
    rw [hvu]
    simp

/-- Claim C6, instantiated at the specification's example:
`tcp://a:1` then `http://a:1` — the registry holds the one normalized
entry and both calls return index 0. -/
theorem C6_witness :
    addToHostList (addToHostList c6State [("tcp://a:1")]).fst [("http://a:1")] =
      ((addToHostList c6State [("tcp://a:1")]).fst, (addToHostList c6State [("tcp://a:1")]).snd) ∧
    (addToHostList c6State [("tcp://a:1")]).fst.urls = [("http://a:1")] ∧
    (addToHostList c6State [("tcp://a:1")]).fst.hosts = [("http://a:1")] ∧
    (addToHostList c6State [("tcp://a:1")]).snd = [0] ∧
    (addToHostList (addToHostList c6State [("tcp://a:1")]).fst [("http://a:1")]).snd = [0] := by
  have h := (C6_registry c6State [("tcp://a:1")]).2.2.2 ("tcp://a:1") ("http://a:1") (by decide)
  refine ⟨h, by decide, by decide, by decide, ?_⟩
  rw [h]
  decide

/-- Claim C7: under `ROUND_ROBIN`, dispatching an unpinned task targets
the current active host and advances the active index by one modulo the
registry length at dispatch time — before the call completes, hence
independently of its outcome; and with 3 registered hosts and
concurrency cap 1, three sequential requests dispatch to hosts
0, 1, 2 in that order. -/
theorem C7_round_robin :
    (∀ (s : ConnState) (task : Task) (rest : List Task),
       s.queue = task :: rest → task.host = none →
       s.strategy = LoadBalancingStrategy.ROUND_ROBIN → s.activeTasks < s.maxTasks →
       runQueueStep s =
         ({ s with queue := rest, activeHost := (s.activeHost + 1) % s.hosts.length,
                   activeTasks := s.activeTasks + 1 },
          some (task, s.activeHost))) ∧
    (runEvents (initMachine c7Cfg 0) c7Events).dispatchLog = [0, 1, 2] := by
  constructor
  · intro s task rest hq hpin hstrat hcap
    obtain ⟨a1, a2, q, u, hs, ah, st, uf⟩ := s
    dsimp only at hq hstrat hcap ⊢
    subst hq
    subst hstrat
    have hcap2 : ¬ (a2 ≤ a1) := Nat.not_le.mpr hcap
    simp [runQueueStep, hpin, hcap2]
  · decide

/-- Claim C7, the dispatch step instantiated at a concrete round-robin
state with three hosts. -/
theorem C7_witness :
    runQueueStep c7State =
      ({ c7State with queue := [], activeHost := (c7State.activeHost + 1) % c7State.hosts.length,
                      activeTasks := c7State.activeTasks + 1 },
       some ({ host := none, id := 9 }, c7State.activeHost)) :=
  C7_round_robin.1 c7State { host := none, id := 9 } [] (by rfl) (by rfl) (by rfl) (by decide)

theorem jsObjGet_append (a b : List (String × String)) (k : String) :
    jsObjGet (a ++ b) k =
      (match jsObjGet b k with
       | some v => some v
       | none => jsObjGet a k) := by
  induction a with
  | nil => cases hb : jsObjGet b k <;> simp [jsObjGet, hb]
  | cons p a2 ih =>
    cases p with
    | mk k2 v => cases hb : jsObjGet b k <;> simp [jsObjGet, ih, hb]

/-- Claim C8: with the binary flag unset, a structured body is wire-encoded
as NDJSON (each array element JSON-encoded, joined by CRLF with a trailing
CRLF, content-type `application/x-ldjson`) when the stream flag is set,
and as a single JSON document with content-type `application/json`
otherwise; the computed content-type reaches the final header object
whenever the per-call headers do not override it; and the body
`{"a":1}` without the stream flag yields exactly the wire body
`{"a":1}`. -/
theorem C8_encoding :
    (∀ (xs : List Json),
       encodeBody (some (Json.arr xs)) false true =
         some (WireBody.text (String.intercalate crlf (xs.map stringifyJson) ++ crlf),
           "application/x-ldjson")) ∧
    (∀ (b : Json), jsTypeofObject b = true → jsTruthy b = true →
       encodeBody (some b) false false =
         some (WireBody.text (stringifyJson b), "application/json")) ∧
    (∀ (ch reqH : List (String × String)) (v n : Nat) (ct : String),
       jsObjGet reqH ("content-type") = none →
       jsObjGet (requestHeaders ch v ct n reqH) ("content-type") = some ct) ∧
    (encodeBody (some (Json.obj [(("a"), Json.num 1)])) false false =
       some (WireBody.text ("\x7b\"a\":1\x7d"), "application/json")) := by
  refine ⟨?_, ?_, ?_, by rfl⟩
  · intro xs
    rfl
  · intro b htype htruthy
    simp [encodeBody, htype, htruthy]
  · intro ch reqH v n ct hnone
    unfold requestHeaders
    rw [jsObjGet_append, hnone, jsObjGet_append]
    rfl

/-- Claim C8, instantiated: the example body and a header build with no
per-call override. -/
theorem C8_witness :
    encodeBody (some (Json.obj [(("a"), Json.num 1)])) false false =
      some (WireBody.text (stringifyJson (Json.obj [(("a"), Json.num 1)])), "application/json") ∧
    jsObjGet (requestHeaders [] 30000 ("application/json") 7 []) ("content-type") =
      some ("application/json") :=
  ⟨C8_encoding.2.1 (Json.obj [(("a"), Json.num 1)]) (by rfl) (by rfl),
    C8_encoding.2.2.1 [] [] 30000 7 ("application/json") (by rfl)⟩

/-- Claim C9: the sentence "the dispatch targets exactly that registry
index on every (re-)dispatch" is refuted by the code: a leader redirect
overwrites the task's pin (connection.ts line 154).  Concretely, a request
submitted with the explicit host index 0 against a one-host registry is
first dispatched to host 0; the answer is a 503 naming `http://b`, which
is registered at index 1 and the task re-pinned there, so the re-dispatch
targets host 1, not the requested index 0. -/
theorem C9_counterexample :
    (runEvents (initMachine c9Cfg 0) c9Events).dispatchLog = [0, 1] ∧
    (runEvents (initMachine c9Cfg 0) c9Events).conn.urls = [("http://a"), ("http://b")] ∧
    (1 : Nat) ≠ 0 := by
  exact ⟨by decide, by decide, by decide⟩

/-- Claim C9 (amended): every dispatch of a task whose pin field is set —
which is the request's explicit host index until a leader redirect
re-pins the task — targets exactly the pinned registry index: the
load-balancing strategy is bypassed, the active host index is not
consulted and not advanced even under `ROUND_ROBIN`; caller-side pinning
therefore works without any leader redirect having occurred. -/
theorem C9_pinned_dispatch (s : ConnState) (task : Task) (rest : List Task) (i : Nat)
    (hq : s.queue = task :: rest) (hpin : task.host = some i)
    (hcap : s.activeTasks < s.maxTasks) :
    runQueueStep s = ({ s with queue := rest, activeTasks := s.activeTasks + 1 },
      some (task, i)) ∧
    (runQueueStep s).fst.activeHost = s.activeHost := by
  obtain ⟨a1, a2, q, u, hs, ah, st, uf⟩ := s
  dsimp only at hq hcap ⊢
  subst hq
  have hcap2 : ¬ (a2 ≤ a1) := Nat.not_le.mpr hcap
  constructor
  · simp [runQueueStep, hpin, hcap2]
  · simp [runQueueStep, hpin, hcap2]

/-- Claim C9 amended, instantiated: a task pinned to host 2 dispatches to
host 2 under `ROUND_ROBIN` without moving the active index. -/
theorem C9_witness :
    runQueueStep c9State =
      ({ c9State with queue := [], activeTasks := c9State.activeTasks + 1 },
       some ({ host := some 2, id := 4 }, 2)) ∧
    (runQueueStep c9State).fst.activeHost = c9State.activeHost :=
  C9_pinned_dispatch c9State { host := some 2, id := 4 } [] 2 (by rfl) (by rfl) (by decide)

/-- Claim C10: at construction, an absent or explicitly-zero
`agentOptions.maxSockets` yields the base cap 3 (the JS `|| 3` treats 0 as
falsy), the cap is doubled exactly when `keepAlive` is truthy (default
true on non-browser runtimes), and in particular `maxSockets: 0` with
`keepAlive: true` yields cap 6, not 0. -/
theorem C10_max_tasks :
    (∀ (cfg : Config) (rand : Nat), cfg.maxSockets = none ∨ cfg.maxSockets = some 0 →
       (connInit cfg rand).maxTasks = (if cfg.keepAlive.getD true = true then 6 else 3)) ∧
    (∀ (cfg : Config) (rand : Nat),
       (connInit cfg rand).maxTasks =
         (if cfg.keepAlive.getD true = true then 2 else 1) *
           (connInit { cfg with keepAlive := some false } rand).maxTasks) ∧
    ((connInit c10Cfg 0).maxTasks = 6) := by
  refine ⟨?_, ?_, by decide⟩
  · intro cfg rand h
    rw [connInit_maxTasks]
    rcases h with h | h <;>
      rw [h] <;> by_cases hk : cfg.keepAlive.getD true = true <;> simp [hk]
  · intro cfg rand
    rw [connInit_maxTasks, connInit_maxTasks]
    by_cases hk : cfg.keepAlive.getD true = true <;> simp [hk, Nat.mul_comm]

/-- Claim C10, instantiated at an absent and at an explicit-zero
`maxSockets`, both with truthy `keepAlive`. -/
theorem C10_witness :
    (connInit { maxSockets := none } 0).maxTasks = 6 ∧ (connInit c10Cfg 0).maxTasks = 6 := by
  have h1 := C10_max_tasks.1 { maxSockets := none } 0 (Or.inl rfl)
  have h2 := C10_max_tasks.1 c10Cfg 0 (Or.inr (by rfl))
  constructor
  · rw [h1]
    decide
  · rw [h2]
    decide

end Arango
